import Mathlib

/-!
Verification development for the LoopNet assisted-living scraper
(`loopnet_assisted_living_scraper.py`).  The pure text-processing core of
the script is embedded shallowly: Python strings become Lean `String`
(operated on through their `List Char` data), the pre-compiled regular
expressions become structural left-to-right scanners with the same
leftmost-match semantics, and the record dictionaries become structures.
Python `str.strip` / `str.lower` are modelled for the ASCII texts the
script handles.
-/

set_option maxHeartbeats 4000000

/-- Python truthiness-based `a or b` on strings: `a` if non-empty, else `b`. -/
def pyOrS (a b : String) : String := if a ≠ "" then a else b

/-- Python `str.lower()` (ASCII). -/
def pyLower (cs : List Char) : List Char := cs.map Char.toLower

/-- Python `str.strip()` (ASCII whitespace). -/
def pyStrip (cs : List Char) : List Char :=
  ((cs.dropWhile Char.isWhitespace).reverse.dropWhile Char.isWhitespace).reverse

def pyStripS (s : String) : String := String.mk (pyStrip s.toList)

def pyLowerS (s : String) : String := String.mk (pyLower s.toList)

/-- `pat` is a literal prefix of `cs`. -/
def hasPrefixCL : List Char → List Char → Bool
  | _, [] => true
  | [], _ :: _ => false
  | c :: cs, p :: ps => c == p && hasPrefixCL cs ps

/-- Python `sub in s` substring containment. -/
def containsSub : List Char → List Char → Bool
  | [], sub => hasPrefixCL [] sub
  | c :: t, sub => hasPrefixCL (c :: t) sub || containsSub t sub

def strContains (s sub : String) : Bool := containsSub s.toList sub.toList

/-- `int` of a run of decimal digits. -/
def digitsToNat (ds : List Char) : Nat := ds.foldl (fun n c => n * 10 + (c.toNat - 48)) 0

/-- The `[\s-]` character class. -/
def isSpaceHyphen (c : Char) : Bool := c.isWhitespace || c == '-'

/-- The `[\d.]` character class of `_RE_CAP`. -/
def isDigitDot (c : Char) : Bool := c.isDigit || c == '.'

/-- The `[\d,]` character class of the sqft patterns. -/
def isDigitComma (c : Char) : Bool := c.isDigit || c == ','

/-- The `\w` word-character class (ASCII). -/
def isWordChar (c : Char) : Bool := c.isAlphanum || c == '_'

/-- A `\b` boundary holds after a word character iff what follows is not one. -/
def noWordAt : List Char → Bool
  | [] => true
  | c :: _ => !isWordChar c

/-- Leftmost search for `(\d+)[\s-]*<suffix>`: scan for a digit, take the
maximal digit run as group 1, skip `[\s-]*`, and test the suffix matcher;
on failure restart one character later, exactly as `re.search` does. -/
def searchNumThen (sfx : List Char → Bool) : List Char → Option Nat
  | [] => none
  | c :: cs =>
    if c.isDigit then
      if sfx (((c :: cs).dropWhile Char.isDigit).dropWhile isSpaceHyphen) then
        some (digitsToNat ((c :: cs).takeWhile Char.isDigit))
      else searchNumThen sfx cs
    else searchNumThen sfx cs

/-- Suffix of `_RE_BED = (\d+)[\s-]*(?:bed|licensed\s*bed)`. -/
def bedSfx (cs : List Char) : Bool :=
  hasPrefixCL cs "bed".toList ||
    (hasPrefixCL cs "licensed".toList &&
      hasPrefixCL ((cs.drop 8).dropWhile Char.isWhitespace) "bed".toList)

/-- Suffix of `_RE_BED_DETAIL = (\d+)[\s-]*(?:bed|licensed)`. -/
def bedDetailSfx (cs : List Char) : Bool :=
  hasPrefixCL cs "bed".toList || hasPrefixCL cs "licensed".toList

/-- Suffix of `_RE_UNIT = (\d+)[\s-]*unit`. -/
def unitSfx (cs : List Char) : Bool := hasPrefixCL cs "unit".toList

/-- Suffix of `_RE_ROOM = (\d+)[\s-]*room`. -/
def roomSfx (cs : List Char) : Bool := hasPrefixCL cs "room".toList

def re_bed_search : List Char → Option Nat := searchNumThen bedSfx

def re_bed_detail_search : List Char → Option Nat := searchNumThen bedDetailSfx

def re_unit_search : List Char → Option Nat := searchNumThen unitSfx

def re_room_search : List Char → Option Nat := searchNumThen roomSfx

/-- Attempt of `_RE_CAP = ([\d.]+)\s*%?\s*cap` at a start position whose
first character is in `[\d.]`; returns group 1. -/
def capAt (cs : List Char) : Option (List Char) :=
  let g := cs.takeWhile isDigitDot
  let r1 := (cs.dropWhile isDigitDot).dropWhile Char.isWhitespace
  let r2 := match r1 with
            | '%' :: t => t.dropWhile Char.isWhitespace
            | _ => r1
  if hasPrefixCL r2 "cap".toList then some g else none

/-- Leftmost search for `_RE_CAP`. -/
def re_cap_search : List Char → Option (List Char)
  | [] => none
  | c :: cs =>
    if isDigitDot c then
      match capAt (c :: cs) with
      | some g => some g
      | none => re_cap_search cs
    else re_cap_search cs

/-- `_RE_PRICE = \$[\d,]+` as an existence test. -/
def re_price_search : List Char → Bool
  | [] => false
  | ['$'] => false
  | '$' :: c :: cs => (c.isDigit || c == ',') || re_price_search (c :: cs)
  | _ :: cs => re_price_search cs

/-- Attempt of `_RE_ADDR_ZIP = ,\s*[A-Z]{2}\s+\d{5}` just after a comma. -/
def addrZipAfterComma (cs : List Char) : Bool :=
  match cs.dropWhile Char.isWhitespace with
  | a :: b :: w :: rest =>
    a.isUpper && b.isUpper && w.isWhitespace &&
      ((rest.dropWhile Char.isWhitespace).takeWhile Char.isDigit).length ≥ 5
  | _ => false

def re_addr_zip_search : List Char → Bool
  | [] => false
  | ',' :: cs => addrZipAfterComma cs || re_addr_zip_search cs
  | _ :: cs => re_addr_zip_search cs

/-- Attempt of `_RE_ADDR_STATE = ,\s*[A-Z]{2}\s*$` just after a comma. -/
def addrStateAfterComma (cs : List Char) : Bool :=
  match cs.dropWhile Char.isWhitespace with
  | a :: b :: rest => a.isUpper && b.isUpper && rest.all Char.isWhitespace
  | _ => false

def re_addr_state_search : List Char → Bool
  | [] => false
  | ',' :: cs => addrStateAfterComma cs || re_addr_state_search cs
  | _ :: cs => re_addr_state_search cs

/-- Shared suffix of the sqft patterns, `(?:sqft|sq\s*ft|sf)`, with the
trailing `\b` of `_RE_SQFT_CHECK` enabled by `withBoundary`. -/
def sqftSfx (withBoundary : Bool) (cs : List Char) : Bool :=
  (hasPrefixCL cs "sqft".toList && (!withBoundary || noWordAt (cs.drop 4))) ||
  (hasPrefixCL cs "sq".toList &&
    (let r := (cs.drop 2).dropWhile Char.isWhitespace
     hasPrefixCL r "ft".toList && (!withBoundary || noWordAt (r.drop 2)))) ||
  (hasPrefixCL cs "sf".toList && (!withBoundary || noWordAt (cs.drop 2)))

/-- `_RE_SQFT_CHECK = [\d,]+\s*(?:sqft|sq\s*ft|sf)\b` as an existence test. -/
def re_sqft_check : List Char → Bool
  | [] => false
  | c :: cs =>
    if isDigitComma c then
      if sqftSfx true (((c :: cs).dropWhile isDigitComma).dropWhile Char.isWhitespace) then
        true
      else re_sqft_check cs
    else re_sqft_check cs

/-- `_RE_SQFT_EXTRACT = ([\d,]+)\s*(?:sqft|sq\s*ft|sf)`; returns group 1. -/
def re_sqft_extract : List Char → Option (List Char)
  | [] => none
  | c :: cs =>
    if isDigitComma c then
      if sqftSfx false (((c :: cs).dropWhile isDigitComma).dropWhile Char.isWhitespace) then
        some ((c :: cs).takeWhile isDigitComma)
      else re_sqft_extract cs
    else re_sqft_extract cs

/-- One listing record, the dictionary built by `parse_listing_text`. -/
structure Listing where
  address : String
  price : String
  beds : Nat
  units : Nat
  sqft : String
  property_type : String
  cap_rate : String
  broker_name : String
  broker_phone : String
  broker_email : String
  broker_company : String
  listing_url : String
  state : String
deriving Repr, DecidableEq

/-- The mutable locals of the line-classification loop of `parse_listing_text`. -/
structure ParseSt where
  price : String
  address : String
  sqft : String
  prop_type : String
  broker : String
deriving Repr, DecidableEq

def initParseSt : ParseSt := ⟨"", "", "", "", ""⟩

def _SKIP_PHRASES : List String :=
  ["view details", "view property", "view listing", "view photos",
   "save search", "sign up", "log in", "show map", "clear filters",
   "results per page", "save my search", "see new listings",
   "create alert", "get alerts", "view om", "view flyer"]

def _TYPE_KEYWORDS : List String :=
  ["assisted living", "senior living", "senior housing",
   "nursing home", "memory care", "skilled nursing",
   "continuing care", "medical care", "health care",
   "residential care", "adult care", "group home"]

def _BROKER_KEYWORDS : List String :=
  ["marcus", "millichap", "cbre", "cushman", "jll",
   "colliers", "newmark", "berkadia", "ad advisors",
   "fish commercial", "realty", "advisors group",
   "capital", "brokerage", "keller williams",
   "coldwell banker", "century 21", "nai", "svn"]

/-- One pass of the elif chain of `parse_listing_text` over one line. -/
def classifyLine (st : ParseSt) (line : String) : ParseSt :=
  let ll := pyStripS (pyLowerS line)
  if _SKIP_PHRASES.any (fun p => strContains ll p) then st
  else if re_price_search line.toList ∧ st.price = "" then { st with price := pyStripS line }
  else if strContains ll "price not disclosed" ∧ st.price = "" then { st with price := "Price Not Disclosed" }
  else if strContains ll "call for" ∧ strContains ll "price" ∧ st.price = "" then { st with price := "Call for Price" }
  else if strContains ll "negotiable" ∧ st.price = "" then { st with price := "Negotiable" }
  else if re_addr_zip_search line.toList ∧ st.address = "" then { st with address := pyStripS line }
  else if re_addr_state_search line.toList ∧ st.address = "" then { st with address := pyStripS line }
  else if re_sqft_check ll.toList ∧ st.sqft = "" then
    match re_sqft_extract ll.toList with
    | some g => { st with sqft := String.mk g ++ " SF" }
    | none => st
  else if _TYPE_KEYWORDS.any (fun k => strContains ll k) ∧ st.prop_type = "" then { st with prop_type := pyStripS line }
  else if _BROKER_KEYWORDS.any (fun k => strContains ll k) ∧ st.broker = "" then { st with broker := pyStripS line }
  else st

/-- `text.replace("·", "\n").split("\n")`, then strip and keep non-empty. -/
def splitOnNl : List Char → List (List Char)
  | [] => [[]]
  | '\n' :: rest => [] :: splitOnNl rest
  | c :: rest =>
    match splitOnNl rest with
    | [] => [[c]]
    | l :: ls => (c :: l) :: ls

def parseLines (text : String) : List String :=
  ((splitOnNl (text.toList.map (fun c => if c == '·' then '\n' else c))).map
      (fun l => String.mk (pyStrip l))).filter (fun s => s ≠ "")

/-- Eligibility test of the secondary property-type pass. -/
def secondaryOk (line : String) : Bool :=
  let ll := pyLowerS line
  !(["view", "save", "sign up", "show map", "clear", "results per"].any
      (fun p => strContains ll p)) &&
    decide (line.length > 15) && !(strContains line "$")

/-- Bed count taken from the lower-cased block text via `_RE_BED`. -/
def parse_beds (full_text : List Char) : Nat :=
  match re_bed_search full_text with
  | some n => n
  | none => 0

/-- Unit count via `_RE_UNIT`, falling back to `_RE_ROOM` when still zero. -/
def parse_units (full_text : List Char) : Nat :=
  let u := match re_unit_search full_text with
           | some n => n
           | none => 0
  if u = 0 then
    match re_room_search full_text with
    | some n => n
    | none => 0
  else u

/-- Cap rate string via `_RE_CAP`. -/
def parse_cap (full_text : List Char) : String :=
  match re_cap_search full_text with
  | some g => String.mk g ++ "% CAP"
  | none => ""

/-- Shallow embedding of `parse_listing_text`. -/
def parse_listing_text (text : String) (link : String := "") (state : String := "") :
    Option Listing :=
  let lines := parseLines text
  if lines.isEmpty then none
  else
    let full_text := pyLower text.toList
    let beds := parse_beds full_text
    let units := parse_units full_text
    let cap_rate := parse_cap full_text
    let st := lines.foldl classifyLine initParseSt
    let prop_type :=
      if st.address = "" ∧ st.prop_type = "" then
        match lines.find? secondaryOk with
        | some line => pyStripS line
        | none => st.prop_type
      else st.prop_type
    if st.price = "" ∧ beds = 0 ∧ units = 0 then none
    else
      some ⟨st.address, st.price, beds, units, st.sqft, prop_type, cap_rate,
            st.broker, "", "", "", link, state⟩

/-- Bed count as the Detail Enricher takes it from the lower-cased page
text, via `_RE_BED_DETAIL` (`scrape_detail_page`). -/
def detail_beds (body_lower : List Char) : Nat :=
  match re_bed_detail_search body_lower with
  | some n => n
  | none => 0

/-- Unit count of `scrape_detail_page`: `_RE_UNIT`, then `_RE_ROOM` when
still zero. -/
def detail_units (body_lower : List Char) : Nat :=
  let u := match re_unit_search body_lower with
           | some n => n
           | none => 0
  if u = 0 then
    match re_room_search body_lower with
    | some n => n
    | none => 0
  else u

/-- Square footage of `scrape_detail_page`: bare `_RE_SQFT_EXTRACT`. -/
def detail_sqft (body_lower : List Char) : String :=
  match re_sqft_extract body_lower with
  | some g => String.mk g ++ " SF"
  | none => ""

/-- Cap rate of `scrape_detail_page`, via `_RE_CAP`. -/
def detail_cap (body_lower : List Char) : String :=
  match re_cap_search body_lower with
  | some g => String.mk g ++ "% CAP"
  | none => ""

/-- Square footage as the Field Parser's line classification produces it:
`_RE_SQFT_CHECK` gates `_RE_SQFT_EXTRACT`. -/
def parse_sqft_line (ll : List Char) : String :=
  if re_sqft_check ll then
    match re_sqft_extract ll with
    | some g => String.mk g ++ " SF"
    | none => ""
  else ""

/-- The fields the `info` dictionary of `scrape_detail_page` carries back. -/
structure DetailInfo where
  broker_name : String
  broker_phone : String
  broker_email : String
  broker_company : String
  beds : Nat
  units : Nat
  sqft : String
  address : String
  cap_rate : String
  property_type : String
deriving Repr, DecidableEq

/-- The merge loop of `main`:
`for k in detail: if detail[k] and not lst.get(k): lst[k] = detail[k]`. -/
def mergeDetail (lst : Listing) (detail : DetailInfo) : Listing :=
  { lst with
    broker_name := if detail.broker_name ≠ "" ∧ lst.broker_name = "" then detail.broker_name else lst.broker_name,
    broker_phone := if detail.broker_phone ≠ "" ∧ lst.broker_phone = "" then detail.broker_phone else lst.broker_phone,
    broker_email := if detail.broker_email ≠ "" ∧ lst.broker_email = "" then detail.broker_email else lst.broker_email,
    broker_company := if detail.broker_company ≠ "" ∧ lst.broker_company = "" then detail.broker_company else lst.broker_company,
    beds := if detail.beds ≠ 0 ∧ lst.beds = 0 then detail.beds else lst.beds,
    units := if detail.units ≠ 0 ∧ lst.units = 0 then detail.units else lst.units,
    sqft := if detail.sqft ≠ "" ∧ lst.sqft = "" then detail.sqft else lst.sqft,
    address := if detail.address ≠ "" ∧ lst.address = "" then detail.address else lst.address,
    cap_rate := if detail.cap_rate ≠ "" ∧ lst.cap_rate = "" then detail.cap_rate else lst.cap_rate,
    property_type := if detail.property_type ≠ "" ∧ lst.property_type = "" then detail.property_type else lst.property_type }

def MIN_BEDS : Nat := 50

def MIN_UNITS : Nat := 40

/-- `meets_criteria` of the source. -/
def meets_criteria (lst : Listing) : Bool :=
  if lst.beds = 0 ∧ lst.units = 0 then true
  else decide (MIN_BEDS ≤ lst.beds ∨ MIN_UNITS ≤ lst.units)

/-- The two filtering passes of `main`: `meets_criteria`, then the
secondary both-counts-known-and-low exclusion. -/
def size_filter (all_listings : List Listing) : List Listing :=
  (all_listings.filter meets_criteria).filter
    (fun l => !(decide (0 < l.beds ∧ l.beds < MIN_BEDS ∧ 0 < l.units ∧ l.units < MIN_UNITS)))

/-- The key of `dedupe`:
`l.get("listing_url", "") or l.get("address", "").strip().lower() or l.get("price", "")`. -/
def listingKey (l : Listing) : String :=
  pyOrS l.listing_url (pyOrS (String.mk (pyLower (pyStrip l.address.toList))) l.price)

def dedupeAux (seen : List String) : List Listing → List Listing
  | [] => []
  | l :: rest =>
    if listingKey l ≠ "" ∧ listingKey l ∉ seen then
      l :: dedupeAux (listingKey l :: seen) rest
    else dedupeAux seen rest

/-- `dedupe` of the source (the cross-page pass of the Dedup Engine). -/
def dedupe (listings : List Listing) : List Listing := dedupeAux [] listings

/-- The key of the within-page dedup loop at the end of
`scrape_search_page`: `l.get("listing_url") or l.get("address", "")`. -/
def pageKey (l : Listing) : String := pyOrS l.listing_url l.address

def pageDedupeAux (seen : List String) : List Listing → List Listing
  | [] => []
  | l :: rest =>
    if pageKey l ≠ "" ∧ pageKey l ∉ seen then
      l :: pageDedupeAux (pageKey l :: seen) rest
    else pageDedupeAux seen rest

/-- The within-page dedup pass of `scrape_search_page`. -/
def page_dedupe (listings : List Listing) : List Listing := pageDedupeAux [] listings

/-- The natural key as the spec words it in section 3: `sourceURL` if
non-empty, else the lower-cased trimmed `address`, else the `price` — the
first non-empty of these in that priority order. -/
def specNaturalKey (l : Listing) : String :=
  pyOrS l.listing_url (pyOrS (String.mk (pyStrip (pyLower l.address.toList))) l.price)

def specDedupeAux (seen : List String) : List Listing → List Listing
  | [] => []
  | l :: rest =>
    if specNaturalKey l ∈ seen then specDedupeAux seen rest
    else l :: specDedupeAux (specNaturalKey l :: seen) rest

/-- Dedup as the spec words it: iterate in discovery order, keep the first
occurrence per natural key, drop subsequent records with an already-seen
key. -/
def spec_dedupe (listings : List Listing) : List Listing := specDedupeAux [] listings

/-- The within-page key as the amended claim words it: `listing_url` if
non-empty, else the raw (untrimmed, case-preserving) address, with no
price fallback. -/
def specPageKey (l : Listing) : String :=
  if l.listing_url ≠ "" then l.listing_url else l.address

def specPageDedupeAux (seen : List String) : List Listing → List Listing
  | [] => []
  | l :: rest =>
    if specPageKey l = "" ∨ specPageKey l ∈ seen then specPageDedupeAux seen rest
    else l :: specPageDedupeAux (specPageKey l :: seen) rest

/-- Within-page dedup as the amended claim words it: keep the first record
per within-page key, dropping records whose key is empty. -/
def spec_page_dedupe (listings : List Listing) : List Listing := specPageDedupeAux [] listings

/-- `_normalize_state_token`: lower-case, then drop every non-`[a-z]`. -/
def _normalize_state_token (s : String) : String :=
  String.mk ((pyLower s.toList).filter (fun c => 'a' ≤ c && c ≤ 'z'))

def _US_STATE_CODES : List (String × String) :=
  [("AL", "Alabama"), ("AK", "Alaska"), ("AZ", "Arizona"), ("AR", "Arkansas"), ("CA", "California"),
   ("CO", "Colorado"), ("CT", "Connecticut"), ("DE", "Delaware"), ("FL", "Florida"), ("GA", "Georgia"),
   ("HI", "Hawaii"), ("ID", "Idaho"), ("IL", "Illinois"), ("IN", "Indiana"), ("IA", "Iowa"),
   ("KS", "Kansas"), ("KY", "Kentucky"), ("LA", "Louisiana"), ("ME", "Maine"), ("MD", "Maryland"),
   ("MA", "Massachusetts"), ("MI", "Michigan"), ("MN", "Minnesota"), ("MS", "Mississippi"), ("MO", "Missouri"),
   ("MT", "Montana"), ("NE", "Nebraska"), ("NV", "Nevada"), ("NH", "New Hampshire"), ("NJ", "New Jersey"),
   ("NM", "New Mexico"), ("NY", "New York"), ("NC", "North Carolina"), ("ND", "North Dakota"), ("OH", "Ohio"),
   ("OK", "Oklahoma"), ("OR", "Oregon"), ("PA", "Pennsylvania"), ("RI", "Rhode Island"), ("SC", "South Carolina"),
   ("SD", "South Dakota"), ("TN", "Tennessee"), ("TX", "Texas"), ("UT", "Utah"), ("VT", "Vermont"),
   ("VA", "Virginia"), ("WA", "Washington"), ("WV", "West Virginia"), ("WI", "Wisconsin"), ("WY", "Wyoming"),
   ("DC", "District of Columbia")]

/-- `_STATE_ALIASES`: for each state both the normalized code and the
normalized full name map to the code, plus the three declared
misspellings.  The keys never collide, so association-list order is
immaterial. -/
def _STATE_ALIASES : List (String × String) :=
  (_US_STATE_CODES.foldl
    (fun acc p => acc ++ [(_normalize_state_token p.1, p.1), (_normalize_state_token p.2, p.1)]) [])
  ++ [(_normalize_state_token "Massachusets", "MA"),
      (_normalize_state_token "Minesota", "MN"),
      (_normalize_state_token "Okakhoma", "OK")]

/-- `_STATE_ALIASES.get(key)`. -/
def aliasGet (key : String) : Option String :=
  (_STATE_ALIASES.find? (fun p => p.1 = key)).map (fun p => p.2)

/-- One iteration of the loop of `_expand_states`, accumulating
`(codes, unknown)`. -/
def expandStep (acc : List String × List String) (raw : String) : List String × List String :=
  match aliasGet (_normalize_state_token raw) with
  | none => (acc.1, acc.2 ++ [raw])
  | some code => (if code ∈ acc.1 then acc.1 else acc.1 ++ [code], acc.2)

def unknownStatesMsg (unknown : List String) : String :=
  "Unknown state(s): " ++ String.intercalate ", " unknown ++
    ". Use a 2-letter code (e.g., 'PA') or full state name (e.g., 'Pennsylvania')."

/-- `_expand_states`: resolve every token, and raise (here: return
`Except.error`) when any token is unknown, so no code list is produced. -/
def _expand_states (states_input : List String) : Except String (List String) :=
  let r := states_input.foldl expandStep ([], [])
  if r.2 ≠ [] then Except.error (unknownStatesMsg r.2)
  else Except.ok r.1

/-- The spec's end-to-end scenario block text. -/
def sunriseBlock : String :=
  "Sunrise Senior Living\n120 Bed Assisted Living\n$12,500,000\n456 Main St, Springfield, IL 62704\nMarcus & Millichap"

/-- A listing with the given counts and every text field empty. -/
def bareListing (beds units : Nat) : Listing :=
  ⟨"", "", beds, units, "", "", "", "", "", "", "", "", ""⟩

/-- A listing with the given address and every other field empty. -/
def addrListing (addr : String) : Listing :=
  ⟨addr, "", 0, 0, "", "", "", "", "", "", "", "", ""⟩

theorem char_eq_iff_toNat (a b : Char) : a = b ↔ a.toNat = b.toNat :=
  ⟨fun h => h ▸ rfl, fun h => Char.ext (UInt32.toNat.inj h)⟩

theorem toNat_ofNat_valid (n : Nat) (h : n < 0xd800) : (Char.ofNat n).toNat = n := by
  rw [Char.ofNat, dif_pos (Or.inl h)]
  rfl

/-- Lower-casing never turns a character into or out of whitespace. -/
theorem toLower_isWhitespace (c : Char) : (Char.toLower c).isWhitespace = c.isWhitespace := by
  rw [Char.toLower]
  split
  · rename_i h
    have hval : (Char.ofNat (c.toNat + 32)).toNat = c.toNat + 32 :=
      toNat_ofNat_valid _ (by omega)
    have hsp : (' ' : Char).toNat = 32 := rfl
    have hta : ('\t' : Char).toNat = 9 := rfl
    have hcr : ('\x0d' : Char).toNat = 13 := rfl
    have hnl : ('\n' : Char).toNat = 10 := rfl
    rw [Char.isWhitespace, Char.isWhitespace]
    simp only [char_eq_iff_toNat, hval, hsp, hta, hcr, hnl]
    trans false
    · simp only [Bool.or_eq_false_iff, decide_eq_false_iff_not]
      omega
    · symm
      simp only [Bool.or_eq_false_iff, decide_eq_false_iff_not]
      omega
  · rfl

/-- Python's `strip().lower()` equals lower-casing then stripping. -/
theorem pyStrip_pyLower (cs : List Char) : pyStrip (pyLower cs) = pyLower (pyStrip cs) := by
  have hp : (Char.isWhitespace ∘ Char.toLower) = Char.isWhitespace := funext toLower_isWhitespace
  simp only [pyStrip, pyLower, List.dropWhile_map, hp, ← List.map_reverse]

/-- The key `dedupe` computes is the spec's natural key. -/
theorem listingKey_eq_specNaturalKey (l : Listing) : listingKey l = specNaturalKey l := by
  rw [listingKey, specNaturalKey, pyStrip_pyLower]

/-- A record surviving `meets_criteria` never has both counts known and
both below the thresholds. -/
theorem meets_criteria_not_borderline (r : Listing) (hm : meets_criteria r = true)
    (hc : 0 < r.beds ∧ r.beds < MIN_BEDS ∧ 0 < r.units ∧ r.units < MIN_UNITS) : False := by
  rw [meets_criteria] at hm
  by_cases h0 : r.beds = 0 ∧ r.units = 0
  · omega
  · rw [if_neg h0] at hm
    have := of_decide_eq_true hm
    rw [MIN_BEDS, MIN_UNITS] at *
    omega

theorem mergeField_keep {α : Type} [DecidableEq α] (d x e : α) (h : x ≠ e) :
    (if d ≠ e ∧ x = e then d else x) = x := if_neg (fun hc => h hc.2)

theorem mergeField_changed {α : Type} [DecidableEq α] (d x e : α)
    (h : (if d ≠ e ∧ x = e then d else x) ≠ x) : x = e := by
  by_contra he
  exact h (if_neg (fun hc => he hc.2))

/-- C1: with `MIN_BEDS = 50` and `MIN_UNITS = 40`, a record with both
counts zero always passes `meets_criteria`; otherwise it passes iff
`beds ≥ MIN_BEDS` or `units ≥ MIN_UNITS`; and a record with both counts
nonzero and both below the thresholds is excluded from the final set
produced by the two filter passes of `main`. -/
theorem C1_size_filter_rules (r : Listing) (ls : List Listing) :
    (MIN_BEDS = 50 ∧ MIN_UNITS = 40)
    ∧ ((r.beds = 0 ∧ r.units = 0) → meets_criteria r = true)
    ∧ (¬(r.beds = 0 ∧ r.units = 0) →
        (meets_criteria r = true ↔ (MIN_BEDS ≤ r.beds ∨ MIN_UNITS ≤ r.units)))
    ∧ ((0 < r.beds ∧ 0 < r.units ∧ r.beds < MIN_BEDS ∧ r.units < MIN_UNITS) →
        r ∉ size_filter ls) := by
  refine ⟨⟨rfl, rfl⟩, ?_, ?_, ?_⟩
  · intro h
    rw [meets_criteria, if_pos h]
  · intro h
    rw [meets_criteria, if_neg h]
    exact decide_eq_true_iff
  · intro h hmem
    rw [size_filter, List.mem_filter] at hmem
    rcases hmem with ⟨_, hp⟩
    simp only [Bool.not_eq_true', decide_eq_false_iff_not] at hp
    exact hp ⟨h.1, h.2.2.1, h.2.1, h.2.2.2⟩

theorem C1_size_filter_rules_witness :
    meets_criteria (bareListing 0 0) = true
    ∧ (meets_criteria (bareListing 120 0) = true ↔
        (MIN_BEDS ≤ (bareListing 120 0).beds ∨ MIN_UNITS ≤ (bareListing 120 0).units))
    ∧ bareListing 10 10 ∉ size_filter [bareListing 10 10] :=
  ⟨(C1_size_filter_rules (bareListing 0 0) []).2.1 ⟨rfl, rfl⟩,
   (C1_size_filter_rules (bareListing 120 0) []).2.2.1 (by decide),
   (C1_size_filter_rules (bareListing 10 10) [bareListing 10 10]).2.2.2 (by decide)⟩

/-- C9: the secondary exclusion of `main` is extensionally redundant — the
composed final filter accepts exactly what `meets_criteria` accepts, and
no record passing `meets_criteria` has both counts nonzero and both below
the thresholds. -/
theorem C9_secondary_filter_redundant (ls : List Listing) (r : Listing) :
    size_filter ls = ls.filter meets_criteria
    ∧ (meets_criteria r = true →
        ¬(0 < r.beds ∧ r.beds < MIN_BEDS ∧ 0 < r.units ∧ r.units < MIN_UNITS)) := by
  constructor
  · rw [size_filter]
    apply List.filter_eq_self.mpr
    intro a ha
    have hm : meets_criteria a = true := (List.mem_filter.mp ha).2
    simp only [Bool.not_eq_true', decide_eq_false_iff_not]
    exact fun hc => meets_criteria_not_borderline a hm hc
  · exact fun hm hc => meets_criteria_not_borderline r hm hc

theorem C9_secondary_filter_redundant_witness :
    ¬(0 < (bareListing 120 30).beds ∧ (bareListing 120 30).beds < MIN_BEDS
        ∧ 0 < (bareListing 120 30).units ∧ (bareListing 120 30).units < MIN_UNITS) :=
  (C9_secondary_filter_redundant [] (bareListing 120 30)).2 (by decide)

/-- C2: the merge loop of `main` is merge-if-missing — a field changes
only if it was empty (zero for the counts), every non-empty/nonzero field
keeps exactly its value, and the fields the detail scrape does not carry
(`price`, `listing_url`, `state`) are never touched. -/
theorem C2_merge_if_missing (lst : Listing) (detail : DetailInfo) :
    ((mergeDetail lst detail).price = lst.price)
    ∧ ((mergeDetail lst detail).listing_url = lst.listing_url)
    ∧ ((mergeDetail lst detail).state = lst.state)
    ∧ (lst.address ≠ "" → (mergeDetail lst detail).address = lst.address)
    ∧ (lst.beds ≠ 0 → (mergeDetail lst detail).beds = lst.beds)
    ∧ (lst.units ≠ 0 → (mergeDetail lst detail).units = lst.units)
    ∧ (lst.sqft ≠ "" → (mergeDetail lst detail).sqft = lst.sqft)
    ∧ (lst.property_type ≠ "" → (mergeDetail lst detail).property_type = lst.property_type)
    ∧ (lst.cap_rate ≠ "" → (mergeDetail lst detail).cap_rate = lst.cap_rate)
    ∧ (lst.broker_name ≠ "" → (mergeDetail lst detail).broker_name = lst.broker_name)
    ∧ (lst.broker_phone ≠ "" → (mergeDetail lst detail).broker_phone = lst.broker_phone)
    ∧ (lst.broker_email ≠ "" → (mergeDetail lst detail).broker_email = lst.broker_email)
    ∧ (lst.broker_company ≠ "" → (mergeDetail lst detail).broker_company = lst.broker_company)
    ∧ ((mergeDetail lst detail).address ≠ lst.address → lst.address = "")
    ∧ ((mergeDetail lst detail).beds ≠ lst.beds → lst.beds = 0)
    ∧ ((mergeDetail lst detail).units ≠ lst.units → lst.units = 0)
    ∧ ((mergeDetail lst detail).sqft ≠ lst.sqft → lst.sqft = "")
    ∧ ((mergeDetail lst detail).property_type ≠ lst.property_type → lst.property_type = "")
    ∧ ((mergeDetail lst detail).cap_rate ≠ lst.cap_rate → lst.cap_rate = "")
    ∧ ((mergeDetail lst detail).broker_name ≠ lst.broker_name → lst.broker_name = "")
    ∧ ((mergeDetail lst detail).broker_phone ≠ lst.broker_phone → lst.broker_phone = "")
    ∧ ((mergeDetail lst detail).broker_email ≠ lst.broker_email → lst.broker_email = "")
    ∧ ((mergeDetail lst detail).broker_company ≠ lst.broker_company → lst.broker_company = "") :=
  ⟨rfl, rfl, rfl,
   fun h => mergeField_keep detail.address lst.address "" h,
   fun h => mergeField_keep detail.beds lst.beds 0 h,
   fun h => mergeField_keep detail.units lst.units 0 h,
   fun h => mergeField_keep detail.sqft lst.sqft "" h,
   fun h => mergeField_keep detail.property_type lst.property_type "" h,
   fun h => mergeField_keep detail.cap_rate lst.cap_rate "" h,
   fun h => mergeField_keep detail.broker_name lst.broker_name "" h,
   fun h => mergeField_keep detail.broker_phone lst.broker_phone "" h,
   fun h => mergeField_keep detail.broker_email lst.broker_email "" h,
   fun h => mergeField_keep detail.broker_company lst.broker_company "" h,
   fun h => mergeField_changed detail.address lst.address "" h,
   fun h => mergeField_changed detail.beds lst.beds 0 h,
   fun h => mergeField_changed detail.units lst.units 0 h,
   fun h => mergeField_changed detail.sqft lst.sqft "" h,
   fun h => mergeField_changed detail.property_type lst.property_type "" h,
   fun h => mergeField_changed detail.cap_rate lst.cap_rate "" h,
   fun h => mergeField_changed detail.broker_name lst.broker_name "" h,
   fun h => mergeField_changed detail.broker_phone lst.broker_phone "" h,
   fun h => mergeField_changed detail.broker_email lst.broker_email "" h,
   fun h => mergeField_changed detail.broker_company lst.broker_company "" h⟩

def phoneLst : Listing := ⟨"", "", 0, 0, "", "", "", "", "999-9999", "", "", "", ""⟩

def phoneDetail : DetailInfo := ⟨"", "555-1234", "", "", 0, 0, "", "", "", ""⟩

theorem C2_merge_if_missing_witness :
    (mergeDetail phoneLst phoneDetail).broker_phone = "999-9999" :=
  (C2_merge_if_missing phoneLst phoneDetail).2.2.2.2.2.2.2.2.2.2.1 (by decide)

/-- C4: `parse_listing_text` returns `none` when no price line was
classified and both extracted counts are zero; consequently every record
it returns has a non-empty price, or a positive bed count, or a positive
unit count. -/
theorem C4_parser_rejection (text link state : String) :
    ((((parseLines text).foldl classifyLine initParseSt).price = ""
        ∧ parse_beds (pyLower text.toList) = 0
        ∧ parse_units (pyLower text.toList) = 0)
      → parse_listing_text text link state = none)
    ∧ (∀ r : Listing, parse_listing_text text link state = some r →
        r.price ≠ "" ∨ 0 < r.beds ∨ 0 < r.units) := by
  constructor
  · intro h
    simp only [parse_listing_text]
    split <;> rfl
  · intro r hr
    simp only [parse_listing_text] at hr
    split at hr
    · exact Option.noConfusion hr
    · split at hr
      · exact Option.noConfusion hr
      · rename_i hcond
        injection hr with hr
        subst hr
        push_neg at hcond
        by_cases hp : ((parseLines text).foldl classifyLine initParseSt).price = ""
        · have := hcond hp
          simp only [hp]
          right
          omega
        · exact Or.inl hp

def fiveBedParsed : Listing := ⟨"", "", 5, 0, "", "", "", "", "", "", "", "", ""⟩

theorem C4_parser_rejection_witness :
    parse_listing_text "hello world" "" "" = none
    ∧ (fiveBedParsed.price ≠ "" ∨ 0 < fiveBedParsed.beds ∨ 0 < fiveBedParsed.units) :=
  ⟨(C4_parser_rejection "hello world" "" "").1 (by decide),
   (C4_parser_rejection "5 bed" "" "").2 fiveBedParsed (by decide)⟩

theorem dedupeAux_eq_specDedupeAux (ls : List Listing) :
    ∀ seen : List String, (∀ r ∈ ls, listingKey r ≠ "") →
      dedupeAux seen ls = specDedupeAux seen ls := by
  induction ls with
  | nil =>
    intro seen _
    rfl
  | cons l rest ih =>
    intro seen h
    have hk : listingKey l ≠ "" := h l (List.mem_cons_self l rest)
    have hrest : ∀ r ∈ rest, listingKey r ≠ "" := fun r hr => h r (List.mem_cons_of_mem _ hr)
    simp only [dedupeAux, specDedupeAux]
    rw [← listingKey_eq_specNaturalKey l]
    by_cases hmem : listingKey l ∈ seen
    · rw [if_neg (fun hc => hc.2 hmem), if_pos hmem]
      exact ih seen hrest
    · rw [if_pos ⟨hk, hmem⟩, if_neg hmem]
      exact congrArg (l :: ·) (ih _ hrest)

/-- C3: `dedupe` computes exactly the spec's natural key, and on any list
of records that all possess a natural key (some component non-empty) it
keeps the first record per key in discovery order and drops every later
record with an already-seen key, i.e. it coincides with the dedup the
spec describes. -/
theorem C3_dedupe_first_per_natural_key (ls : List Listing) :
    (∀ r : Listing, listingKey r = specNaturalKey r)
    ∧ ((∀ r ∈ ls, listingKey r ≠ "") → dedupe ls = spec_dedupe ls) :=
  ⟨listingKey_eq_specNaturalKey, fun h => dedupeAux_eq_specDedupeAux ls [] h⟩

def wUrl1 : Listing := ⟨"", "$1,000", 1, 0, "", "", "", "", "", "", "", "http://x", ""⟩

def wUrl2 : Listing := ⟨"", "$2,000", 2, 0, "", "", "", "", "", "", "", "http://x", ""⟩

def wAddr : Listing := ⟨" Main St ", "", 0, 3, "", "", "", "", "", "", "", "", ""⟩

theorem C3_dedupe_first_per_natural_key_witness :
    dedupe [wUrl1, wUrl2, wAddr] = spec_dedupe [wUrl1, wUrl2, wAddr] :=
  (C3_dedupe_first_per_natural_key [wUrl1, wUrl2, wAddr]).2 (by decide)

theorem mem_dedupeAux_key_ne (ls : List Listing) :
    ∀ (seen : List String) (r : Listing), r ∈ dedupeAux seen ls → listingKey r ≠ "" := by
  induction ls with
  | nil =>
    intro seen r hr
    simp [dedupeAux] at hr
  | cons l rest ih =>
    intro seen r hr
    simp only [dedupeAux] at hr
    by_cases hc : listingKey l ≠ "" ∧ listingKey l ∉ seen
    · rw [if_pos hc] at hr
      rcases List.mem_cons.mp hr with h | h
      · rw [h]
        exact hc.1
      · exact ih _ r h
    · rw [if_neg hc] at hr
      exact ih _ r hr

/-- C10: a record whose `listing_url`, stripped `address` and `price` are
all empty has an empty key, and `dedupe` silently drops it — it is absent
from the output even when nothing else shares its key. -/
theorem C10_empty_key_dropped (ls : List Listing) (r : Listing)
    (hmem : r ∈ ls) (hurl : r.listing_url = "") (haddr : pyStripS r.address = "")
    (hprice : r.price = "") : r ∉ dedupe ls := by
  intro hin
  apply mem_dedupeAux_key_ne ls [] r hin
  have haddr' : pyStrip r.address.toList = [] := congrArg String.data haddr
  rw [listingKey, hurl, haddr', hprice]
  decide

def emptyKeyListing : Listing := ⟨"", "", 7, 0, "", "", "", "", "", "", "", "", ""⟩

theorem C10_empty_key_dropped_witness : emptyKeyListing ∉ dedupe [emptyKeyListing] :=
  C10_empty_key_dropped [emptyKeyListing] emptyKeyListing (by decide) rfl (by decide) rfl

/-- C7 counterexample: the within-page dedup of `scrape_search_page` does
not key on the section-3 natural key — two records with equal natural
keys (same address up to case) both survive the page pass, while dedup by
the natural key would keep only the first; a record whose only key
component is its price is dropped by the page pass though its natural key
is non-empty. -/
theorem C7_page_dedupe_counterexample :
    specNaturalKey (addrListing "A b") = specNaturalKey (addrListing "a b")
    ∧ specNaturalKey (addrListing "A b") ≠ ""
    ∧ page_dedupe [addrListing "A b", addrListing "a b"]
        ≠ spec_dedupe [addrListing "A b", addrListing "a b"]
    ∧ addrListing "a b" ∈ page_dedupe [addrListing "A b", addrListing "a b"] := by
  decide

theorem pageDedupeAux_eq_specPageDedupeAux (ls : List Listing) :
    ∀ seen : List String, pageDedupeAux seen ls = specPageDedupeAux seen ls := by
  induction ls with
  | nil =>
    intro seen
    rfl
  | cons l rest ih =>
    intro seen
    simp only [pageDedupeAux, specPageDedupeAux]
    rw [show specPageKey l = pageKey l from rfl]
    by_cases hk : pageKey l = ""
    · rw [if_neg (fun hc => hc.1 hk), if_pos (Or.inl hk)]
      exact ih seen
    · by_cases hm : pageKey l ∈ seen
      · rw [if_neg (fun hc => hc.2 hm), if_pos (Or.inr hm)]
        exact ih seen
      · rw [if_pos ⟨hk, hm⟩, if_neg (fun hor => hor.elim hk hm)]
        exact congrArg (l :: ·) (ih _)

/-- C7 amended: the within-page pass deduplicates by the simpler key
`listing_url` if non-empty else the raw address (no lower-casing, no
trimming, no price fallback), keeping the first record per key and
dropping records whose url and address are both empty. -/
theorem C7_amended_page_dedupe (ls : List Listing) :
    page_dedupe ls = spec_page_dedupe ls :=
  pageDedupeAux_eq_specPageDedupeAux ls []

/-- C5 counterexample: on the spec's end-to-end scenario block the parser
leaves `broker_company` empty — the brand-keyword line does not land in
the `broker_company` field. -/
theorem C5_broker_company_counterexample :
    (parse_listing_text sunriseBlock "" "").map (fun r => r.broker_company)
      ≠ some "Marcus & Millichap"
    ∧ (parse_listing_text sunriseBlock "" "").map (fun r => r.broker_company) = some "" := by
  constructor
  · decide
  · decide

/-- C5 amended: for any link and region, the scenario block parses to a
record with propertyType "Sunrise Senior Living" (the first qualifying
non-chrome match), price "$12,500,000", the full address, bedCount 120,
and the brand line "Marcus & Millichap" stored in `broker_name` (the
parser's broker slot) while `broker_company` stays empty. -/
theorem C5_amended_scenario (link state : String) :
    parse_listing_text sunriseBlock link state =
      some ⟨"456 Main St, Springfield, IL 62704", "$12,500,000", 120, 0, "",
            "Sunrise Senior Living", "", "Marcus & Millichap", "", "", "", link, state⟩ := by
  rfl

theorem searchNumThen_mono (sfx1 sfx2 : List Char → Bool)
    (hs : ∀ l, sfx1 l = true → sfx2 l = true) :
    ∀ cs : List Char, (searchNumThen sfx1 cs).isSome = true →
      (searchNumThen sfx2 cs).isSome = true := by
  intro cs
  induction cs with
  | nil =>
    intro h
    simp [searchNumThen] at h
  | cons c cs ih =>
    intro h
    simp only [searchNumThen] at h ⊢
    by_cases hd : c.isDigit = true
    · rw [if_pos hd] at h ⊢
      by_cases h1 : sfx1 (((c :: cs).dropWhile Char.isDigit).dropWhile isSpaceHyphen) = true
      · rw [if_pos (hs _ h1)]
        rfl
      · rw [if_neg h1] at h
        by_cases h2 : sfx2 (((c :: cs).dropWhile Char.isDigit).dropWhile isSpaceHyphen) = true
        · rw [if_pos h2]
          rfl
        · rw [if_neg h2]
          exact ih h
    · rw [if_neg hd] at h ⊢
      exact ih h

/-- Every suffix accepted by the parser's bed pattern is accepted by the
enricher's broader one. -/
theorem bedSfx_le_bedDetailSfx (l : List Char) (h : bedSfx l = true) :
    bedDetailSfx l = true := by
  rw [bedSfx] at h
  rw [bedDetailSfx]
  simp only [Bool.or_eq_true, Bool.and_eq_true] at h ⊢
  rcases h with h | ⟨h1, _⟩
  · exact Or.inl h
  · exact Or.inr h1

/-- C6 counterexample: the two parsing paths do not use identical
patterns — on "50 licensed care" the Field Parser's `_RE_BED` extracts no
bed count while the Detail Enricher's `_RE_BED_DETAIL` extracts 50, and
on "100 sfc" the parser's boundary-checked sqft path extracts nothing
while the enricher's bare `_RE_SQFT_EXTRACT` yields "100 SF". -/
theorem C6_pattern_divergence_counterexample :
    parse_beds "50 licensed care".toList ≠ detail_beds "50 licensed care".toList
    ∧ parse_sqft_line "100 sfc".toList ≠ detail_sqft "100 sfc".toList := by
  constructor
  · decide
  · decide

/-- C6 amended: unit count (with its room fallback) and cap rate are
extracted by literally the same patterns in both paths and agree on every
text; the bed patterns differ, the enricher's being strictly more
permissive (it finds a bed count whenever the parser does, possibly a
different one); the parser's square-footage path adds a word-boundary
check, and whenever that check passes the two paths extract the same
square footage. -/
theorem C6_amended_shared_patterns (cs : List Char) :
    parse_units cs = detail_units cs
    ∧ parse_cap cs = detail_cap cs
    ∧ ((re_bed_search cs).isSome = true → (re_bed_detail_search cs).isSome = true)
    ∧ (re_sqft_check cs = true → parse_sqft_line cs = detail_sqft cs) := by
  refine ⟨rfl, rfl, ?_, ?_⟩
  · exact searchNumThen_mono bedSfx bedDetailSfx bedSfx_le_bedDetailSfx cs
  · intro h
    rw [parse_sqft_line, if_pos h]
    rfl

theorem C6_amended_shared_patterns_witness :
    (re_bed_detail_search "5 bed".toList).isSome = true
    ∧ parse_sqft_line "10 sf".toList = detail_sqft "10 sf".toList :=
  ⟨(C6_amended_shared_patterns "5 bed".toList).2.2.1 (by decide),
   (C6_amended_shared_patterns "10 sf".toList).2.2.2 (by decide)⟩

/-- The unknown-token accumulator of `_expand_states` collects exactly
the input tokens whose normalized form misses the alias table, in order. -/
theorem expand_foldl_unknown (inp : List String) :
    ∀ acc : List String × List String,
      (inp.foldl expandStep acc).2
        = acc.2 ++ inp.filter (fun r => (aliasGet (_normalize_state_token r)).isNone) := by
  induction inp with
  | nil =>
    intro acc
    simp
  | cons a t ih =>
    intro acc
    rw [List.foldl_cons, List.filter_cons]
    rcases hopt : aliasGet (_normalize_state_token a) with _ | c
    · have hstep : expandStep acc a = (acc.1, acc.2 ++ [a]) := by
        rw [expandStep, hopt]
      rw [hstep, ih]
      simp [hopt]
    · have hstep : expandStep acc a
          = (if c ∈ acc.1 then acc.1 else acc.1 ++ [c], acc.2) := by
        rw [expandStep, hopt]
      rw [hstep, ih]
      simp [hopt]

/-- C8: every alias the table declares (each 2-letter code, each full
state name, and the three declared misspellings) resolves to its canonical
code; whenever some token does not resolve, `_expand_states` produces the
configuration error whose message lists exactly the unresolved tokens and
no code list; when every token resolves, a code list is produced. -/
theorem C8_region_resolution :
    (∀ p ∈ _US_STATE_CODES,
        aliasGet (_normalize_state_token p.1) = some p.1
        ∧ aliasGet (_normalize_state_token p.2) = some p.1)
    ∧ aliasGet (_normalize_state_token "Massachusets") = some "MA"
    ∧ aliasGet (_normalize_state_token "Minesota") = some "MN"
    ∧ aliasGet (_normalize_state_token "Okakhoma") = some "OK"
    ∧ (∀ inp : List String,
        inp.filter (fun r => (aliasGet (_normalize_state_token r)).isNone) ≠ [] →
          _expand_states inp
            = Except.error (unknownStatesMsg
                (inp.filter (fun r => (aliasGet (_normalize_state_token r)).isNone))))
    ∧ (∀ inp : List String,
        inp.filter (fun r => (aliasGet (_normalize_state_token r)).isNone) = [] →
          ∃ codes, _expand_states inp = Except.ok codes) := by
  refine ⟨by decide, by decide, by decide, by decide, ?_, ?_⟩
  · intro inp h
    have hu : (inp.foldl expandStep ([], [])).2
        = inp.filter (fun r => (aliasGet (_normalize_state_token r)).isNone) := by
      rw [expand_foldl_unknown inp ([], [])]
      simp
    simp only [_expand_states]
    rw [if_pos (by rw [hu]; exact h), hu]
  · intro inp h
    refine ⟨(inp.foldl expandStep ([], [])).1, ?_⟩
    have hu : (inp.foldl expandStep ([], [])).2
        = inp.filter (fun r => (aliasGet (_normalize_state_token r)).isNone) := by
      rw [expand_foldl_unknown inp ([], [])]
      simp
    simp only [_expand_states]
    rw [if_neg (fun hne => hne (hu.trans h))]

theorem C8_region_resolution_witness :
    aliasGet (_normalize_state_token "PA") = some "PA"
    ∧ _expand_states ["Pennsylvania", "Xyzzy"]
        = Except.error "Unknown state(s): Xyzzy. Use a 2-letter code (e.g., 'PA') or full state name (e.g., 'Pennsylvania')."
    ∧ ∃ codes, _expand_states ["PA", "Texas"] = Except.ok codes := by
  refine ⟨(C8_region_resolution.1 ("PA", "Pennsylvania") (by decide)).1, ?_, ?_⟩
  · have he := C8_region_resolution.2.2.2.2.1 ["Pennsylvania", "Xyzzy"] (by decide)
    rw [he]
    exact congrArg Except.error (by decide)
  · exact C8_region_resolution.2.2.2.2.2 ["PA", "Texas"] (by decide)
